import Mathlib

/-!
Verification of the OpenMateCode bridge core against its design document.

The Python sources `src/memory.py` (the SQLite/FTS5 memory store) and
`src/bridge.py` (the transcript tailer, the memory-block extractor and the
response monitor) are embedded shallowly below: pure functions become Lean
functions, SQLite tables become lists of rows, the filesystem and the clock
become explicit parameters, and Python exceptions become `Except`.
-/

/-! ## Python string preliminaries -/

/-- The whitespace characters recognised by Python's `str.strip()` / `str.split()`
(ASCII fragment; the sources only ever meet ASCII whitespace). -/
def isPyWs (c : Char) : Bool :=
  c == ' ' || c == '\t' || c == '\n' || c == '\r' || c == '\x0b' || c == '\x0c'

/-- `str.strip()` on a character list: drop whitespace from both ends. -/
def pyStripL (l : List Char) : List Char :=
  ((l.dropWhile isPyWs).reverse.dropWhile isPyWs).reverse

/-- `str.strip()`. -/
def pyStrip (s : String) : String := String.mk (pyStripL s.data)

/-- Worker for `str.split()`: the second argument is the current word, reversed. -/
def pySplitWsAux : List Char → List Char → List String
  | [], [] => []
  | [], acc => [String.mk acc.reverse]
  | c :: rest, acc =>
    if isPyWs c then
      if acc = [] then pySplitWsAux rest []
      else String.mk acc.reverse :: pySplitWsAux rest []
    else pySplitWsAux rest (c :: acc)

/-- `str.split()` with no argument: split on whitespace runs, no empty pieces. -/
def pySplitWs (s : String) : List String := pySplitWsAux s.data []

/-- Python string slicing `s[:n]` (character-based, like `str`). -/
def pyTake (s : String) (n : Nat) : String := String.mk (s.data.take n)

/-- Python `s.startswith(pre)`. -/
def pyStartsWith (s pre : String) : Bool := pre.data.isPrefixOf s.data

/-- Python `s.endswith(suf)`. -/
def pyEndsWith (s suf : String) : Bool := suf.data.reverse.isPrefixOf s.data.reverse

/-- Decimal digits to a number, most significant first. -/
def digitsToNat (l : List Char) : Nat :=
  l.foldl (fun n c => n * 10 + (c.toNat - 48)) 0

/-- Python's `int(s)` on an already-stripped string: optional sign followed by
at least one digit; `none` models the `ValueError` that `int` raises otherwise. -/
def pyParseInt (s : String) : Option Int :=
  match s.data with
  | [] => none
  | '-' :: ds => if ds ≠ [] ∧ ds.all Char.isDigit then some (-(digitsToNat ds : Int)) else none
  | '+' :: ds => if ds ≠ [] ∧ ds.all Char.isDigit then some ((digitsToNat ds : Int)) else none
  | ds => if ds.all Char.isDigit then some ((digitsToNat ds : Int)) else none

/-- Lookup in a Python `dict` modelled as an association list (first match). -/
def lookupAssoc {α : Type} (l : List (String × α)) (k : String) : Option α :=
  (l.find? (fun p => p.1 = k)).map (fun p => p.2)

/-- `d[k] = v` on a `dict` modelled as an association list: update in place,
append when absent (insertion order is preserved, as in Python). -/
def insertAssoc {α : Type} (l : List (String × α)) (k : String) (v : α) : List (String × α) :=
  if l.any (fun p => p.1 = k) then
    l.map (fun p => if p.1 = k then (k, v) else p)
  else l ++ [(k, v)]

/-- Remove a key from a `dict` modelled as an association list (`dict.pop(k, None)`). -/
def removeAssoc {α : Type} (l : List (String × α)) (k : String) : List (String × α) :=
  l.filter (fun p => p.1 ≠ k)

/-! ## `src/memory.py` — the `LocalMemory` store

The `memories` table is a list of rows carrying their SQLite `rowid`; the
`memory_search` FTS5 virtual table is a list of `(rowid, content)` pairs.
`INSERT OR REPLACE` keyed on the primary key deletes the conflicting row and
inserts a fresh one with a fresh `rowid`, which is what the model does.
The FTS5 `MATCH` operator and the FTS5 `rank` relevance value are taken as
parameters (`ftsMatch`, `rank`): none of the verified properties depends on
the tokenizer, only on the `user_id` scoping, the `LIMIT`, and the shape of
the writes.  The MD5 digest of `_generate_id` is likewise a parameter `md5`:
the properties depend only on the digest being a function of its input. -/

structure MemRow where
  rowid : Nat
  id : String
  user_id : String
  content : String
  ts : Nat
  metadata : Option String
  message_type : String
deriving DecidableEq, Repr

structure MemoryDB where
  memories : List MemRow
  fts : List (Nat × String)
  nextRowid : Nat
deriving DecidableEq, Repr

/-- The empty database (`_init_db` creates empty tables). -/
def MemoryDB.empty : MemoryDB := ⟨[], [], 0⟩

namespace LocalMemory

/-- `_generate_id`: the MD5 hex digest of `"{user_id}:{content}:{now}"` where
`now` is `datetime.now().isoformat()`, passed explicitly here. -/
def generate_id (md5 : String → String) (user_id content now : String) : String :=
  md5 (user_id ++ ":" ++ content ++ ":" ++ now)

/-- `LocalMemory.add`.  `now` is the `datetime.now().isoformat()` read inside
`_generate_id`; `ts` is the `datetime.now()` stored in the `timestamp` column;
`metadata` is the already-serialised `json.dumps(metadata)` (or `None`). -/
def add (md5 : String → String) (db : MemoryDB) (user_id content0 : String)
    (metadata : Option String) (message_type : String) (now : String) (ts : Nat) :
    MemoryDB × Bool :=
  if pyStrip content0 = "" then (db, false)
  else
    let content := pyTake (pyStrip content0) 10000
    let memory_id := generate_id md5 user_id content now
    let rid := db.nextRowid
    let mems := db.memories.filter (fun r => r.id ≠ memory_id) ++
      [⟨rid, memory_id, user_id, content, ts, metadata, message_type⟩]
    let fts := db.fts.filter (fun f => f.1 ≠ rid) ++ [(rid, content)]
    (⟨mems, fts, rid + 1⟩, true)

/-- `_sanitize_query`, first step: `re.sub(r'[^\w\s\-_.]', ' ', query)`
(word characters taken ASCII, as in the data the bridge handles). -/
def sanitize_chars (s : String) : String :=
  String.mk (s.data.map (fun c =>
    if c.isAlphanum || c == '_' || isPyWs c || c == '-' || c == '.' then c else ' '))

/-- `_sanitize_query`: keep words of length ≥ 2, suffix each with `*`,
join with `" AND "`; empty when no words survive. -/
def sanitize_query (query : String) : String :=
  let words := pySplitWs (sanitize_chars query)
  match words with
  | [] => ""
  | _ => String.intercalate " AND "
      ((words.filter (fun w => w.length ≥ 2)).map (fun w => w ++ "*"))

/-- Insertion step of the `ORDER BY rank` sort. -/
def insertSorted (le : MemRow → MemRow → Bool) (x : MemRow) : List MemRow → List MemRow
  | [] => [x]
  | y :: ys => if le x y then x :: y :: ys else y :: insertSorted le x ys

/-- `ORDER BY rank` modelled as a sort by the abstract relevance value. -/
def sortByRank (le : MemRow → MemRow → Bool) (l : List MemRow) : List MemRow :=
  l.foldr (insertSorted le) []

/-- `LocalMemory.search`: empty-query guards, sanitisation, the
`memories ⋈ memory_search` join filtered by `user_id` and `MATCH`,
`ORDER BY rank`, `LIMIT`. -/
def search (ftsMatch : String → String → Bool) (rank : String → String → Int)
    (db : MemoryDB) (user_id query : String) (limit : Nat) : List MemRow :=
  if pyStrip query = "" then []
  else
    let q := sanitize_query query
    if q = "" then []
    else
      let rows := db.memories.flatMap (fun m =>
        db.fts.filterMap (fun f =>
          if f.1 = m.rowid ∧ m.user_id = user_id ∧ ftsMatch q f.2 then some m else none))
      (sortByRank (fun a b => rank q a.content ≤ rank q b.content) rows).take limit

/-- `LocalMemory.delete`: look up the row by `(id, user_id)` (`fetchone`),
then delete from the main table by `(id, user_id)` and from the FTS table by
the fetched `rowid`; `False` when no such row exists. -/
def delete (db : MemoryDB) (user_id memory_id : String) : MemoryDB × Bool :=
  match db.memories.find? (fun r => r.id = memory_id ∧ r.user_id = user_id) with
  | none => (db, false)
  | some row =>
    let mems := db.memories.filter (fun r => ¬(r.id = memory_id ∧ r.user_id = user_id))
    let fts := db.fts.filter (fun f => f.1 ≠ row.rowid)
    (⟨mems, fts, db.nextRowid⟩, true)

/-- `LocalMemory.delete_by_query`: search with `limit=100`, delete each match,
count the successful deletions. -/
def delete_by_query (ftsMatch : String → String → Bool) (rank : String → String → Int)
    (db : MemoryDB) (user_id query : String) : MemoryDB × Nat :=
  let hits := search ftsMatch rank db user_id query 100
  hits.foldl (fun acc mem =>
    let r := delete acc.1 user_id mem.id
    (r.1, acc.2 + if r.2 then 1 else 0)) (db, 0)

end LocalMemory

/-! ## Lemmas about the memory store -/

theorem mem_insertSorted {le : MemRow → MemRow → Bool} {x a : MemRow} :
    ∀ {l : List MemRow}, a ∈ LocalMemory.insertSorted le x l → a = x ∨ a ∈ l := by
  intro l
  induction l with
  | nil => simp [LocalMemory.insertSorted]
  | cons y ys ih =>
    simp only [LocalMemory.insertSorted]
    split
    · intro h
      rcases List.mem_cons.mp h with h | h
      · exact Or.inl h
      · exact Or.inr h
    · intro h
      rcases List.mem_cons.mp h with h | h
      · exact Or.inr (by simp [h])
      · rcases ih h with h | h
        · exact Or.inl h
        · exact Or.inr (List.mem_cons_of_mem _ h)

theorem mem_sortByRank {le : MemRow → MemRow → Bool} {a : MemRow} :
    ∀ {l : List MemRow}, a ∈ LocalMemory.sortByRank le l → a ∈ l := by
  intro l
  induction l with
  | nil => simp [LocalMemory.sortByRank]
  | cons y ys ih =>
    intro h
    simp only [LocalMemory.sortByRank, List.foldr_cons] at h
    rcases mem_insertSorted h with h | h
    · simp [h]
    · exact List.mem_cons_of_mem _ (ih h)

theorem search_mem_user {ftsMatch : String → String → Bool} {rank : String → String → Int}
    {db : MemoryDB} {owner query : String} {limit : Nat} {r : MemRow}
    (h : r ∈ LocalMemory.search ftsMatch rank db owner query limit) : r.user_id = owner := by
  unfold LocalMemory.search at h
  split at h
  · simp at h
  · dsimp only at h
    split at h
    · simp at h
    · have h1 : r ∈ LocalMemory.sortByRank _ _ := List.mem_of_mem_take h
      have h2 := mem_sortByRank h1
      rcases List.mem_flatMap.mp h2 with ⟨m, _, hm⟩
      rcases List.mem_filterMap.mp hm with ⟨f, _, hf⟩
      split at hf
      · rename_i hcond
        cases hf
        exact hcond.2.1
      · cases hf

theorem delete_removed_user {db : MemoryDB} {owner mid : String} {r : MemRow}
    (hmem : r ∈ db.memories) (hout : r ∉ (LocalMemory.delete db owner mid).1.memories) :
    r.user_id = owner := by
  unfold LocalMemory.delete at hout
  split at hout
  · exact absurd hmem hout
  · dsimp only at hout
    by_contra hne
    exact hout (List.mem_filter.mpr ⟨hmem, by simp [hne]⟩)

theorem delete_keeps_other_owner {db : MemoryDB} {owner mid : String} {r : MemRow}
    (hmem : r ∈ db.memories) (hne : r.user_id ≠ owner) :
    r ∈ (LocalMemory.delete db owner mid).1.memories := by
  by_contra hout
  exact hne (delete_removed_user hmem hout)

theorem foldl_delete_keeps_other_owner (hits : List MemRow) (owner : String) (r : MemRow)
    (hne : r.user_id ≠ owner) :
    ∀ acc : MemoryDB × Nat, r ∈ acc.1.memories →
      r ∈ (hits.foldl (fun acc mem =>
        let d := LocalMemory.delete acc.1 owner mem.id
        (d.1, acc.2 + if d.2 then 1 else 0)) acc).1.memories := by
  induction hits with
  | nil => intro acc h; simpa using h
  | cons x xs ih =>
    intro acc h
    simp only [List.foldl_cons]
    exact ih _ (delete_keeps_other_owner h hne)

theorem foldl_delete_count_le (hits : List MemRow) (owner : String) :
    ∀ acc : MemoryDB × Nat,
      (hits.foldl (fun acc mem =>
        let d := LocalMemory.delete acc.1 owner mem.id
        (d.1, acc.2 + if d.2 then 1 else 0)) acc).2 ≤ acc.2 + hits.length := by
  induction hits with
  | nil => intro acc; simp
  | cons x xs ih =>
    intro acc
    simp only [List.foldl_cons, List.length_cons]
    refine le_trans (ih _) ?_
    simp only
    split <;> omega

theorem search_length_le (ftsMatch : String → String → Bool) (rank : String → String → Int)
    (db : MemoryDB) (owner query : String) (limit : Nat) :
    (LocalMemory.search ftsMatch rank db owner query limit).length ≤ limit := by
  unfold LocalMemory.search
  split
  · simp
  · dsimp only
    split
    · simp
    · simp [List.length_take_le]

/-- C1: `MemoryStore` retrieval and deletion are scoped to the owner:
`search` only returns records whose `user_id` is the owner, `delete` removes a
record only when its `user_id` equals the owner, and `delete_by_query` never
deletes a record of a different owner even when its content matches. -/
theorem C1_owner_scoping :
    (∀ (ftsMatch : String → String → Bool) (rank : String → String → Int)
        (db : MemoryDB) (owner query : String) (limit : Nat) (r : MemRow),
        r ∈ LocalMemory.search ftsMatch rank db owner query limit → r.user_id = owner) ∧
    (∀ (db : MemoryDB) (owner mid : String) (r : MemRow),
        r ∈ db.memories → r ∉ (LocalMemory.delete db owner mid).1.memories →
        r.user_id = owner) ∧
    (∀ (ftsMatch : String → String → Bool) (rank : String → String → Int)
        (db : MemoryDB) (owner query : String) (r : MemRow),
        r ∈ db.memories →
        r ∉ (LocalMemory.delete_by_query ftsMatch rank db owner query).1.memories →
        r.user_id = owner) := by
  refine ⟨fun _ _ _ _ _ _ _ h => search_mem_user h,
          fun _ _ _ _ hm ho => delete_removed_user hm ho,
          fun ftsMatch rank db owner query r hm ho => ?_⟩
  by_contra hne
  exact ho (foldl_delete_keeps_other_owner _ owner r hne (db, 0) hm)

/-- Concrete two-owner store used to witness the scoping theorems. -/
def dbW : MemoryDB :=
  ⟨[⟨0, "idA", "u1", "hello world", 0, none, "conversation"⟩,
    ⟨1, "idB", "u2", "hello there", 0, none, "conversation"⟩],
   [(0, "hello world"), (1, "hello there")], 2⟩

/-- The `u1` record of `dbW`. -/
def rowA : MemRow := ⟨0, "idA", "u1", "hello world", 0, none, "conversation"⟩

theorem C1_owner_scoping_witness :
    rowA.user_id = "u1" ∧ rowA.user_id = "u1" ∧ rowA.user_id = "u1" :=
  ⟨C1_owner_scoping.1 (fun _ _ => true) (fun _ _ => 0) dbW "u1" "hello" 5 rowA (by decide),
   C1_owner_scoping.2.1 dbW "u1" "idA" rowA (by decide) (by decide),
   C1_owner_scoping.2.2 (fun _ _ => true) (fun _ _ => 0) dbW "u1" "hello" rowA
     (by decide) (by decide)⟩

/-- C10: `delete_by_query` searches with an internal limit of 100 and deletes
each match, so the count it returns never exceeds 100. -/
theorem C10_delete_by_query_capped (ftsMatch : String → String → Bool)
    (rank : String → String → Int) (db : MemoryDB) (owner query : String) :
    (LocalMemory.delete_by_query ftsMatch rank db owner query).2 ≤ 100 := by
  unfold LocalMemory.delete_by_query
  dsimp only
  refine le_trans (foldl_delete_count_le _ owner (db, 0)) ?_
  simpa using search_length_le ftsMatch rank db owner query 100

/-- C6: `add` upserts by fingerprint: re-adding the identical owner and content
with the same `_generate_id` timestamp (`now`) replaces the existing row rather
than duplicating it — the table does not grow, and exactly one row with the
fingerprint id exists afterwards. -/
theorem C6_add_upsert_idempotent (md5 : String → String) (db : MemoryDB)
    (owner content : String) (metadata : Option String) (message_type : String)
    (now : String) (ts ts' : Nat) :
    ((LocalMemory.add md5 (LocalMemory.add md5 db owner content metadata message_type now ts).1
        owner content metadata message_type now ts').1.memories.length =
      (LocalMemory.add md5 db owner content metadata message_type now ts).1.memories.length) ∧
    (pyStrip content ≠ "" →
      (LocalMemory.add md5 (LocalMemory.add md5 db owner content metadata message_type now ts).1
        owner content metadata message_type now ts').1.memories.countP
        (fun r => r.id = LocalMemory.generate_id md5 owner (pyTake (pyStrip content) 10000) now)
        = 1) := by
  by_cases h : pyStrip content = ""
  · refine ⟨by simp [LocalMemory.add, h], fun hc => absurd h hc⟩
  · constructor
    · simp only [LocalMemory.add, if_neg h]
      simp [List.filter_append, List.filter_filter]
    · intro _
      simp only [LocalMemory.add, if_neg h]
      simp only [List.filter_append, List.filter_filter, List.countP_append]
      rw [List.countP_eq_zero.mpr, List.countP_cons]
      · simp
      · intro a ha
        simp only [List.mem_filter] at ha
        simp only [decide_eq_true_eq]
        have := ha.2
        simp only [Bool.and_self, decide_eq_true_eq] at this
        exact this

/-- C7: `add` rejects empty or whitespace-only content (returns `False`, stores
nothing); for accepted content the stored record's content is the stripped
input truncated to at most 10,000 characters. -/
theorem C7_add_reject_and_truncate (md5 : String → String) (db : MemoryDB)
    (owner content : String) (metadata : Option String) (message_type : String)
    (now : String) (ts : Nat) :
    (pyStrip content = "" →
      LocalMemory.add md5 db owner content metadata message_type now ts = (db, false)) ∧
    (pyStrip content ≠ "" →
      (LocalMemory.add md5 db owner content metadata message_type now ts).2 = true ∧
      ∃ r ∈ (LocalMemory.add md5 db owner content metadata message_type now ts).1.memories,
        r.user_id = owner ∧ r.content = pyTake (pyStrip content) 10000 ∧
        r.content.length ≤ 10000) := by
  refine ⟨fun h => by simp [LocalMemory.add, h], fun h => ?_⟩
  constructor
  · simp [LocalMemory.add, if_neg h]
  · refine ⟨⟨db.nextRowid,
      LocalMemory.generate_id md5 owner (pyTake (pyStrip content) 10000) now, owner,
      pyTake (pyStrip content) 10000, ts, metadata, message_type⟩, ?_, rfl, rfl, ?_⟩
    · simp [LocalMemory.add, if_neg h]
    · exact List.length_take_le _ _

/-- Identity stand-in for the MD5 digest, used only to instantiate witnesses. -/
def idmd5 : String → String := fun s => s

theorem C6_add_upsert_idempotent_witness :
    (pyStrip "note" ≠ "") ∧
    (LocalMemory.add idmd5
        (LocalMemory.add idmd5 MemoryDB.empty "u" "note" none "conversation" "T0" 0).1
        "u" "note" none "conversation" "T0" 1).1.memories.countP
      (fun r => r.id = LocalMemory.generate_id idmd5 "u" (pyTake (pyStrip "note") 10000) "T0")
      = 1 :=
  ⟨by decide,
   (C6_add_upsert_idempotent idmd5 MemoryDB.empty "u" "note" none "conversation" "T0" 0 1).2
     (by decide)⟩

theorem C7_add_reject_and_truncate_witness :
    (LocalMemory.add idmd5 MemoryDB.empty "u" "  " none "conversation" "T0" 0 =
      (MemoryDB.empty, false)) ∧
    ((LocalMemory.add idmd5 MemoryDB.empty "u" " hi " none "conversation" "T0" 0).2 = true ∧
      ∃ r ∈ (LocalMemory.add idmd5 MemoryDB.empty "u" " hi " none "conversation" "T0" 0).1.memories,
        r.user_id = "u" ∧ r.content = pyTake (pyStrip " hi ") 10000 ∧
        r.content.length ≤ 10000) :=
  ⟨(C7_add_reject_and_truncate idmd5 MemoryDB.empty "u" "  " none "conversation" "T0" 0).1
     (by decide),
   (C7_add_reject_and_truncate idmd5 MemoryDB.empty "u" " hi " none "conversation" "T0" 0).2
     (by decide)⟩

/-! ## `src/bridge.py` — `extract_memory_update`

The two regular expressions of `extract_memory_update` are modelled directly:

* `--\s*memory\s*\n(.*?)\n--` (DOTALL).  A greedy `\s*` followed by a literal
  can only stop where the literal's first character appears, so the `\s*`
  before `memory` consumes the maximal whitespace run; the `\s*` before the
  mandatory `\n` backtracks over the newline positions of its whitespace run
  from the rightmost one; the non-greedy `(.*?)\n--` stops at the first
  later occurrence of `"\n--"`.
* `<(observation|memory|fact|narrative|concept)\b.*?>.*?</\1>` (DOTALL).
  The five tag names are mutually prefix-free, so ordered alternation tries
  them in sequence; a non-greedy `.*?>` resolves to the first `>` (a closing
  tag exists after a later `>` only if one exists after the first), and
  `.*?</tag>` to the first later closing tag.

`re.sub` removes non-overlapping leftmost matches left to right; the removal
loops (`memSubFuel`, `xmlScanFuel`) carry the input length as structural fuel
(each round consumes at least one character, so the fuel never runs out). -/

/-- First occurrence of the literal `pat` (nonempty) in a list: text before
the occurrence and text after it. -/
def splitFirstSub (pat : List Char) : List Char → Option (List Char × List Char)
  | [] => none
  | c :: rest =>
    if pat.isPrefixOf (c :: rest) then some ([], (c :: rest).drop pat.length)
    else (splitFirstSub pat rest).map (fun pr => (c :: pr.1, pr.2))

/-- Maximal whitespace prefix and the remainder (greedy `\s*`). -/
def wsSplitL (l : List Char) : List Char × List Char :=
  (l.takeWhile isPyWs, l.dropWhile isPyWs)

/-- Indices of `'\n'` inside a whitespace run, rightmost first: the order in
which a greedy `\s*` followed by a mandatory `\n` tries its split points. -/
def nlPosDesc (w : List Char) : List Nat :=
  ((List.range w.length).filter (fun k => w.getD k 'x' = '\n')).reverse

/-- Match `--\s*memory\s*\n(.*?)\n--` (DOTALL) anchored at the head of the
list: the captured group and the text after the closing `--`. -/
def memMatchAt (l : List Char) : Option (List Char × List Char) :=
  match l with
  | c1 :: c2 :: rest =>
    if c1 = '-' ∧ c2 = '-' then
      let p := wsSplitL rest
      if ("memory".data).isPrefixOf p.2 then
        let q := wsSplitL (p.2.drop 6)
        (nlPosDesc q.1).findSome? (fun k =>
          splitFirstSub ['\n', '-', '-'] (q.1.drop (k + 1) ++ q.2))
      else none
    else none
  | _ => none

/-- `re.search` for the memory-block pattern: leftmost match, returned as
(text before the match, captured group, text after the match). -/
def memFind : List Char → Option (List Char × List Char × List Char)
  | [] => none
  | c :: rest =>
    match memMatchAt (c :: rest) with
    | some pr => some ([], pr.1, pr.2)
    | none => (memFind rest).map (fun t => (c :: t.1, t.2.1, t.2.2))

/-- `re.sub(memory_pattern + r"\s*", "", ·)`: drop every non-overlapping
leftmost match together with the trailing whitespace. -/
def memSubFuel : Nat → List Char → List Char
  | 0, l => l
  | fuel + 1, l =>
    match memFind l with
    | none => l
    | some t => t.1 ++ memSubFuel fuel (wsSplitL t.2.2).2

/-- All memory-block matches removed (fuelled by the input length). -/
def memSubAll (l : List Char) : List Char := memSubFuel l.length l

/-- The tag alternation of the XML pattern, in source order. -/
def xmlTags : List (List Char) :=
  ["observation".data, "memory".data, "fact".data, "narrative".data, "concept".data]

/-- Python `\w` (ASCII fragment), used for the `\b` boundary after a tag name. -/
def isWordChar (c : Char) : Bool := c.isAlphanum || c == '_'

/-- Match `<(observation|memory|fact|narrative|concept)\b.*?>.*?</\1>` (DOTALL)
anchored at the head: the whole match (`group(0)`) and the rest. -/
def xmlMatchAt (l : List Char) : Option (List Char × List Char) :=
  match l with
  | c0 :: rest =>
    if c0 ≠ '<' then none
    else xmlTags.findSome? (fun tag =>
      if tag.isPrefixOf rest then
        let r1 := rest.drop tag.length
        match r1 with
        | [] => none
        | c :: _ =>
          if isWordChar c then none
          else
            match splitFirstSub ['>'] r1 with
            | none => none
            | some (mid1, r2) =>
              match splitFirstSub ('<' :: '/' :: (tag ++ ['>'])) r2 with
              | none => none
              | some (mid2, r3) =>
                some ('<' :: (tag ++ mid1 ++ '>' :: mid2 ++ '<' :: '/' :: (tag ++ ['>'])), r3)
      else none)
  | _ => none

/-- Leftmost XML-element match: (before, `group(0)`, after). -/
def xmlFind : List Char → Option (List Char × List Char × List Char)
  | [] => none
  | c :: rest =>
    match xmlMatchAt (c :: rest) with
    | some pr => some ([], pr.1, pr.2)
    | none => (xmlFind rest).map (fun t => (c :: t.1, t.2.1, t.2.2))

/-- `re.finditer` + `re.sub` for the XML pattern in one pass: the list of
matches in order, and the text with all matches removed. -/
def xmlScanFuel : Nat → List Char → List (List Char) × List Char
  | 0, l => ([], l)
  | fuel + 1, l =>
    match xmlFind l with
    | none => ([], l)
    | some t =>
      let r := xmlScanFuel fuel t.2.2
      (t.2.1 :: r.1, t.1 ++ r.2)

/-- All XML-element matches and the subbed text (fuelled by the input length). -/
def xmlScan (l : List Char) : List (List Char) × List Char := xmlScanFuel l.length l

/-- Pending-newline emitter for `re.sub(r'\n{3,}', '\n\n', ·)`: a run of `n`
newlines keeps its length below 3 and collapses to two otherwise. -/
def emitNls (n : Nat) : List Char := if n ≥ 3 then ['\n', '\n'] else List.replicate n '\n'

/-- Worker for the blank-line collapse; `n` counts pending consecutive newlines. -/
def collapseNlAux : List Char → Nat → List Char
  | [], n => emitNls n
  | c :: rest, n =>
    if c = '\n' then collapseNlAux rest (n + 1)
    else emitNls n ++ c :: collapseNlAux rest 0

/-- `re.sub(r'\n{3,}', '\n\n', ·)`. -/
def collapseNlL (l : List Char) : List Char := collapseNlAux l 0

/-- `extract_memory_update`: capture the first `-- memory … --` block, strip
all such blocks (plus trailing whitespace), capture and strip every XML
observation element, and collapse runs of three or more newlines. -/
def extract_memory_update (response : String) : String × String :=
  let memoryMatch := memFind response.data
  let memory_content :=
    match memoryMatch with
    | some t => pyStrip (String.mk t.2.1)
    | none => ""
  let cleaned0 :=
    match memoryMatch with
    | some _ => pyStrip (String.mk (memSubAll response.data))
    | none => response
  let x := xmlScan cleaned0.data
  let cleaned1 := if x.1 ≠ [] then pyStrip (String.mk x.2) else cleaned0
  let memory_content1 :=
    if x.1 ≠ [] then
      let xml_text := String.intercalate "\n\n" (x.1.map (fun m => pyStrip (String.mk m)))
      if memory_content ≠ "" then memory_content ++ "\n\n" ++ xml_text else xml_text
    else memory_content
  let cleaned2 := if cleaned1 ≠ "" then String.mk (collapseNlL cleaned1.data) else cleaned1
  (cleaned2, memory_content1)

/-- C5: on a delimited key-value block containing `k=v` followed by `hello`,
the extractor returns display text `hello` and captures `k=v` verbatim as the
memory content (round-trip). -/
theorem C5_kv_block_roundtrip :
    extract_memory_update "-- memory\nk=v\n--\nhello" = ("hello", "k=v") := by decide


/-! ### The two-block family for `extract_memory_update` -/

/-- A character that is plain prose for the extractor: not whitespace, not a
dash, not an opening angle bracket. -/
def plainChar (c : Char) : Bool := !(isPyWs c) && !(c == '-') && !(c == '<')

/-- A nonempty string of plain characters. -/
def PlainTxt (s : String) : Prop := s.data ≠ [] ∧ ∀ c ∈ s.data, plainChar c = true

theorem plainChar_spec {c : Char} (h : plainChar c = true) :
    isPyWs c = false ∧ c ≠ '-' ∧ c ≠ '<' ∧ c ≠ '\n' := by
  simp only [plainChar, Bool.and_eq_true, Bool.not_eq_true', beq_eq_false_iff_ne] at h
  refine ⟨h.1.1, h.1.2, h.2, fun e => ?_⟩
  subst e
  simp [isPyWs] at h

theorem splitFirstSub_nl {g : List Char} (hg : ∀ c ∈ g, c ≠ '\n') (r : List Char) :
    splitFirstSub ['\n', '-', '-'] (g ++ '\n' :: '-' :: '-' :: r) = some (g, r) := by
  induction g with
  | nil => simp [splitFirstSub, List.isPrefixOf]
  | cons c cs ih =>
    have hc : c ≠ '\n' := hg c (List.mem_cons_self c cs)
    have hih := ih (fun x hx => hg x (List.mem_cons_of_mem c hx))
    simp [splitFirstSub, List.isPrefixOf, Ne.symm hc, hih]

/-- `memMatchAt` succeeds at the head of a well-formed memory block with a
plain, nonempty interior, capturing exactly the interior. -/
theorem memMatchAt_block {g : List Char} (hne : g ≠ [])
    (hplain : ∀ c ∈ g, plainChar c = true) (r : List Char) :
    memMatchAt ('-' :: '-' :: ' ' :: 'm' :: 'e' :: 'm' :: 'o' :: 'r' :: 'y' :: '\n' ::
      (g ++ '\n' :: '-' :: '-' :: r)) = some (g, r) := by
  obtain ⟨c0, cs, rfl⟩ : ∃ c0 cs, g = c0 :: cs := by
    cases g with
    | nil => exact absurd rfl hne
    | cons a as => exact ⟨a, as, rfl⟩
  have hc0 : isPyWs c0 = false := (plainChar_spec (hplain c0 (List.mem_cons_self c0 cs))).1
  have hnonl : ∀ c ∈ c0 :: cs, c ≠ '\n' := fun c hc => (plainChar_spec (hplain c hc)).2.2.2
  have hsplit := splitFirstSub_nl hnonl r
  have hws1 : isPyWs ' ' = true := rfl
  have hws2 : isPyWs 'm' = false := rfl
  have hws3 : isPyWs '\n' = true := rfl
  simp [memMatchAt, wsSplitL, List.takeWhile_cons, List.dropWhile_cons, hws1, hws2, hws3,
    hc0, List.isPrefixOf, nlPosDesc, List.findSome?]
  rw [List.cons_append] at hsplit
  rw [hsplit]

theorem memMatchAt_cons_not_dash {c : Char} (hc : c ≠ '-') (l : List Char) :
    memMatchAt (c :: l) = none := by
  cases l with
  | nil => rfl
  | cons d ds => simp [memMatchAt, hc]

theorem memFind_cons_not_dash {c : Char} (hc : c ≠ '-') (l : List Char) :
    memFind (c :: l) = (memFind l).map (fun t => (c :: t.1, t.2.1, t.2.2)) := by
  simp [memFind, memMatchAt_cons_not_dash hc]

theorem memFind_append_plain {t : List Char} (ht : ∀ c ∈ t, plainChar c = true) :
    ∀ l : List Char, memFind (t ++ l) = (memFind l).map (fun r => (t ++ r.1, r.2.1, r.2.2)) := by
  induction t with
  | nil =>
    intro l
    simp only [List.nil_append]
    cases memFind l <;> rfl
  | cons c cs ih =>
    intro l
    have hc : c ≠ '-' := (plainChar_spec (ht c (List.mem_cons_self c cs))).2.1
    rw [List.cons_append, memFind_cons_not_dash hc,
      ih (fun x hx => ht x (List.mem_cons_of_mem c hx))]
    cases memFind l <;> rfl

theorem memFind_plain_none {t : List Char} (ht : ∀ c ∈ t, plainChar c = true) :
    memFind t = none := by
  have h := memFind_append_plain ht []
  simpa using h

theorem memFind_block {g : List Char} (hne : g ≠ [])
    (hplain : ∀ c ∈ g, plainChar c = true) (r : List Char) :
    memFind ('-' :: '-' :: ' ' :: 'm' :: 'e' :: 'm' :: 'o' :: 'r' :: 'y' :: '\n' ::
      (g ++ '\n' :: '-' :: '-' :: r)) = some ([], g, r) := by
  simp [memFind, memMatchAt_block hne hplain r]

theorem memSubFuel_none {l : List Char} (h : memFind l = none) :
    ∀ fuel, memSubFuel fuel l = l := by
  intro fuel
  cases fuel with
  | zero => rfl
  | succ n => simp [memSubFuel, h]

theorem xmlMatchAt_cons_not_lt {c : Char} (hc : c ≠ '<') (l : List Char) :
    xmlMatchAt (c :: l) = none := by
  simp [xmlMatchAt, hc]

theorem xmlFind_no_lt {l : List Char} (h : ∀ c ∈ l, c ≠ '<') : xmlFind l = none := by
  induction l with
  | nil => rfl
  | cons c cs ih =>
    simp [xmlFind, xmlMatchAt_cons_not_lt (h c (List.mem_cons_self c cs)),
      ih (fun x hx => h x (List.mem_cons_of_mem c hx))]

theorem xmlScanFuel_none {l : List Char} (h : xmlFind l = none) :
    ∀ fuel, xmlScanFuel fuel l = ([], l) := by
  intro fuel
  cases fuel with
  | zero => rfl
  | succ n => simp [xmlScanFuel, h]

theorem dropWhile_ws_plain_head {m : List Char} (hm : m ≠ [])
    (h : ∀ c ∈ m, plainChar c = true) (r : List Char) :
    (m ++ r).dropWhile isPyWs = m ++ r := by
  cases m with
  | nil => exact absurd rfl hm
  | cons c cs =>
    have hc := (plainChar_spec (h c (List.mem_cons_self c cs))).1
    simp [List.dropWhile_cons, hc]

theorem dropWhile_ws_plain {l : List Char} (h : ∀ c ∈ l, plainChar c = true) :
    l.dropWhile isPyWs = l := by
  cases l with
  | nil => rfl
  | cons c cs =>
    simp [List.dropWhile_cons, (plainChar_spec (h c (List.mem_cons_self c cs))).1]

theorem pyStripL_plain {l : List Char} (h : ∀ c ∈ l, plainChar c = true) :
    pyStripL l = l := by
  have h2 : l.reverse.dropWhile isPyWs = l.reverse :=
    dropWhile_ws_plain (fun c hc => h c (List.mem_reverse.mp hc))
  simp [pyStripL, dropWhile_ws_plain h, h2]

theorem pyStripL_mid {t1 t2 : List Char} (h1 : t1 ≠ []) (hp1 : ∀ c ∈ t1, plainChar c = true)
    (h2 : t2 ≠ []) (hp2 : ∀ c ∈ t2, plainChar c = true) :
    pyStripL (t1 ++ '\n' :: t2) = t1 ++ '\n' :: t2 := by
  have hd : (t1 ++ '\n' :: t2).dropWhile isPyWs = t1 ++ '\n' :: t2 :=
    dropWhile_ws_plain_head h1 hp1 _
  have hrev : (t1 ++ '\n' :: t2).reverse = t2.reverse ++ '\n' :: t1.reverse := by
    simp
  have hd2 : (t2.reverse ++ '\n' :: t1.reverse).dropWhile isPyWs
      = t2.reverse ++ '\n' :: t1.reverse :=
    dropWhile_ws_plain_head (by simpa using h2) (fun c hc => hp2 c (List.mem_reverse.mp hc)) _
  simp [pyStripL, hd, hrev, hd2]

theorem collapseNlAux_no_nl {l : List Char} (h : ∀ c ∈ l, c ≠ '\n') :
    collapseNlAux l 0 = l := by
  induction l with
  | nil => rfl
  | cons c cs ih =>
    simp [collapseNlAux, h c (List.mem_cons_self c cs), emitNls,
      ih (fun x hx => h x (List.mem_cons_of_mem c hx))]

theorem collapseNlAux_one {l : List Char} (h : ∀ c ∈ l, c ≠ '\n') :
    collapseNlAux l 1 = '\n' :: l := by
  cases l with
  | nil => rfl
  | cons c cs =>
    simp [collapseNlAux, h c (List.mem_cons_self c cs), emitNls,
      collapseNlAux_no_nl (fun x hx => h x (List.mem_cons_of_mem c hx))]

theorem collapseNl_mid {t1 t2 : List Char} (h1 : ∀ c ∈ t1, c ≠ '\n')
    (h2 : ∀ c ∈ t2, c ≠ '\n') :
    collapseNlL (t1 ++ '\n' :: t2) = t1 ++ '\n' :: t2 := by
  induction t1 with
  | nil => simpa [collapseNlL, collapseNlAux] using collapseNlAux_one h2
  | cons c cs ih =>
    have hc := h1 c (List.mem_cons_self c cs)
    have hih := ih (fun x hx => h1 x (List.mem_cons_of_mem c hx))
    simp only [collapseNlL, collapseNlAux, List.cons_append] at hih ⊢
    simp [hc, emitNls, hih]

theorem wsSplit2_nl_plain {m : List Char} (hp : ∀ c ∈ m, plainChar c = true) :
    (wsSplitL ('\n' :: m)).2 = m := by
  have hnl : isPyWs '\n' = true := rfl
  simp [wsSplitL, List.dropWhile_cons, hnl, dropWhile_ws_plain hp]

theorem wsSplit2_nl_head {m : List Char} (hm : m ≠ []) (hp : ∀ c ∈ m, plainChar c = true)
    (x : List Char) : (wsSplitL ('\n' :: (m ++ x))).2 = m ++ x := by
  have hnl : isPyWs '\n' = true := rfl
  simp [wsSplitL, List.dropWhile_cons, hnl, dropWhile_ws_plain_head hm hp x]

/-- Removing all memory-block matches from a text of the two-block shape
leaves exactly the two surrounding prose pieces. -/
theorem memSub_two_blocks {g1 g2 t1 t2 : List Char}
    (hg1ne : g1 ≠ []) (hg1p : ∀ c ∈ g1, plainChar c = true)
    (hg2ne : g2 ≠ []) (hg2p : ∀ c ∈ g2, plainChar c = true)
    (ht1ne : t1 ≠ []) (ht1p : ∀ c ∈ t1, plainChar c = true)
    (ht2p : ∀ c ∈ t2, plainChar c = true) :
    ∀ fuel, 2 ≤ fuel →
      memSubFuel fuel ('-' :: '-' :: ' ' :: 'm' :: 'e' :: 'm' :: 'o' :: 'r' :: 'y' :: '\n' ::
        (g1 ++ '\n' :: '-' :: '-' ::
          ('\n' :: (t1 ++ '\n' ::
            ('-' :: '-' :: ' ' :: 'm' :: 'e' :: 'm' :: 'o' :: 'r' :: 'y' :: '\n' ::
              (g2 ++ '\n' :: '-' :: '-' :: ('\n' :: t2))))))) = t1 ++ '\n' :: t2 := by
  intro fuel hfuel
  obtain ⟨f, rfl⟩ : ∃ f, fuel = f + 1 + 1 := ⟨fuel - 2, by omega⟩
  rw [memSubFuel, memFind_block hg1ne hg1p]
  have hB2 : memFind ('\n' :: ('-' :: '-' :: ' ' :: 'm' :: 'e' :: 'm' :: 'o' :: 'r' :: 'y' ::
      '\n' :: (g2 ++ '\n' :: '-' :: '-' :: ('\n' :: t2)))) =
      some (['\n'], g2, '\n' :: t2) := by
    rw [memFind_cons_not_dash (by decide), memFind_block hg2ne hg2p]
    rfl
  have hfind2 : memFind (t1 ++ '\n' ::
      ('-' :: '-' :: ' ' :: 'm' :: 'e' :: 'm' :: 'o' :: 'r' :: 'y' ::
        '\n' :: (g2 ++ '\n' :: '-' :: '-' :: ('\n' :: t2)))) =
      some (t1 ++ ['\n'], g2, '\n' :: t2) := by
    rw [memFind_append_plain ht1p, hB2]
    rfl
  dsimp only
  rw [wsSplit2_nl_head ht1ne ht1p, memSubFuel, hfind2]
  dsimp only
  rw [wsSplit2_nl_plain ht2p, memSubFuel_none (memFind_plain_none ht2p)]
  simp

/-- `(String.mk l).data = l`. -/
theorem data_mk (l : List Char) : (String.mk l).data = l := rfl

/-- Builder for a delimited key-value annotation block: start marker line,
interior, end marker line (`-- memory\n` … `\n--\n`). -/
def mkKvBlock (g : String) : String := "-- memory\n" ++ g ++ "\n--\n"

/-- C9: on input with two delimited key-value blocks, `extract_memory_update`
removes both blocks from the display text but captures only the first block's
interior as memory content; the second interior is silently discarded. -/
theorem C9_second_block_interior_discarded (g1 g2 t1 t2 : String)
    (hg1 : PlainTxt g1) (hg2 : PlainTxt g2) (ht1 : PlainTxt t1) (ht2 : PlainTxt t2) :
    extract_memory_update (mkKvBlock g1 ++ t1 ++ "\n" ++ mkKvBlock g2 ++ t2) =
      (t1 ++ "\n" ++ t2, g1) := by
  obtain ⟨hg1ne, hg1p⟩ := hg1
  obtain ⟨hg2ne, hg2p⟩ := hg2
  obtain ⟨ht1ne, ht1p⟩ := ht1
  obtain ⟨ht2ne, ht2p⟩ := ht2
  have e1 : ("-- memory\n" : String).data =
      ['-', '-', ' ', 'm', 'e', 'm', 'o', 'r', 'y', '\n'] := rfl
  have e2 : ("\n--\n" : String).data = ['\n', '-', '-', '\n'] := rfl
  have e3 : ("\n" : String).data = ['\n'] := rfl
  have hdata : (mkKvBlock g1 ++ t1 ++ "\n" ++ mkKvBlock g2 ++ t2).data =
      '-' :: '-' :: ' ' :: 'm' :: 'e' :: 'm' :: 'o' :: 'r' :: 'y' :: '\n' ::
        (g1.data ++ '\n' :: '-' :: '-' ::
          ('\n' :: (t1.data ++ '\n' ::
            ('-' :: '-' :: ' ' :: 'm' :: 'e' :: 'm' :: 'o' :: 'r' :: 'y' :: '\n' ::
              (g2.data ++ '\n' :: '-' :: '-' :: ('\n' :: t2.data)))))) := by
    simp [mkKvBlock, String.data_append, e1, e2, e3]
  have hfind1 : memFind (mkKvBlock g1 ++ t1 ++ "\n" ++ mkKvBlock g2 ++ t2).data =
      some ([], g1.data, '\n' :: (t1.data ++ '\n' ::
        ('-' :: '-' :: ' ' :: 'm' :: 'e' :: 'm' :: 'o' :: 'r' :: 'y' :: '\n' ::
          (g2.data ++ '\n' :: '-' :: '-' :: ('\n' :: t2.data))))) := by
    rw [hdata]
    exact memFind_block hg1ne hg1p _
  have hsub : memSubAll (mkKvBlock g1 ++ t1 ++ "\n" ++ mkKvBlock g2 ++ t2).data =
      t1.data ++ '\n' :: t2.data := by
    rw [memSubAll, hdata]
    exact memSub_two_blocks hg1ne hg1p hg2ne hg2p ht1ne ht1p ht2p _ (by simp)
  have hplainNoLt : ∀ c ∈ t1.data ++ '\n' :: t2.data, c ≠ '<' := by
    intro c hc
    rcases List.mem_append.mp hc with h | h
    · exact (plainChar_spec (ht1p c h)).2.2.1
    · rcases List.mem_cons.mp h with h | h
      · subst h; decide
      · exact (plainChar_spec (ht2p c h)).2.2.1
  have hxml : xmlScan (t1.data ++ '\n' :: t2.data) = ([], t1.data ++ '\n' :: t2.data) := by
    rw [xmlScan]
    exact xmlScanFuel_none (xmlFind_no_lt hplainNoLt) _
  have hnoNl1 : ∀ c ∈ t1.data, c ≠ '\n' := fun c hc => (plainChar_spec (ht1p c hc)).2.2.2
  have hnoNl2 : ∀ c ∈ t2.data, c ≠ '\n' := fun c hc => (plainChar_spec (ht2p c hc)).2.2.2
  have hne : String.mk (t1.data ++ '\n' :: t2.data) ≠ "" := by
    intro h
    have h2 := congrArg String.data h
    simp [data_mk] at h2
  have hfin1 : String.mk (t1.data ++ '\n' :: t2.data) = t1 ++ "\n" ++ t2 := by
    apply String.ext
    simp [data_mk, String.data_append, e3]
  have hfing : String.mk (pyStripL g1.data) = g1 := by
    rw [pyStripL_plain hg1p]
  simp only [extract_memory_update, hfind1, hsub, pyStrip, data_mk]
  rw [pyStripL_mid ht1ne ht1p ht2ne ht2p]
  simp only [data_mk, hxml, hfing]
  simp only [ne_eq, not_true_eq_false, if_false, ite_not]
  rw [if_neg (by simpa using hne)]
  rw [collapseNl_mid hnoNl1 hnoNl2]
  exact Prod.ext hfin1 rfl

theorem C9_second_block_interior_discarded_witness :
    extract_memory_update (mkKvBlock "a=1" ++ "X" ++ "\n" ++ mkKvBlock "b=2" ++ "Y") =
      ("X" ++ "\n" ++ "Y", "a=1") :=
  C9_second_block_interior_discarded "a=1" "b=2" "X" "Y"
    ⟨by decide, by decide⟩ ⟨by decide, by decide⟩ ⟨by decide, by decide⟩ ⟨by decide, by decide⟩

/-! ## `src/bridge.py` — `extract_assistant_responses`

The transcript file is a parameter `fileContent : Option String` (`none` when
the path does not exist).  `json.loads` is a parameter `parse` returning an
optional `JValue` (`none` models `json.JSONDecodeError`); `json.dumps` and
Python's `str(·)` rendering, whose output never influences control flow, are
the parameters `pyDumps` (`none` models a `dumps` failure, caught in the
source) and `pyStr`.  Python exceptions escaping the per-line `try` (e.g.
`.get`/`.strip`/`.endswith` on a value of the wrong type, or `"\n".join` over
a non-string) are the `Except.error` channel, carrying the seen-key set as
mutated so far, which is what the source's outer `except` returns. -/

inductive JValue where
  | null
  | bool (b : Bool)
  | num (n : Int)
  | str (s : String)
  | arr (xs : List JValue)
  | obj (fields : List (String × JValue))

/-- `dict.get(k)` on a JSON object (parsed objects have unique keys). -/
def jGet : JValue → String → Option JValue
  | JValue.obj fields, k => lookupAssoc fields k
  | _, _ => none

/-- Python truthiness of a JSON value. -/
def jTruthy : JValue → Bool
  | JValue.null => false
  | JValue.bool b => b
  | JValue.num n => n != 0
  | JValue.str s => s != ""
  | JValue.arr xs => !xs.isEmpty
  | JValue.obj fields => !fields.isEmpty

/-- Python `x == "lit"` for an optional JSON value against a string literal. -/
def jIsStr (v : Option JValue) (s : String) : Bool :=
  match v with
  | some (JValue.str t) => t == s
  | _ => false

/-- Python `x == "lit"` for a JSON value against a string literal. -/
def jValIsStr (v : JValue) (s : String) : Bool :=
  match v with
  | JValue.str t => t == s
  | _ => false

/-- Rendering a value inside an f-string: a `str` stays itself, anything else
goes through Python's `str(·)` (the parameter `pyStr`). -/
def jAsStr (pyStr : JValue → String) : JValue → String
  | JValue.str s => s
  | v => pyStr v

/-- `block.get(k, dflt)` rendered in an f-string. -/
def jField (pyStr : JValue → String) (block : JValue) (k : String) (dflt : String) : String :=
  match jGet block k with
  | none => dflt
  | some v => jAsStr pyStr v

/-- Python `c in s[1:]` for the bare-tag heuristic. -/
def pyContainsChar (s : String) (c : Char) : Bool := s.data.contains c

/-- Python `s[1:]`. -/
def pyDrop (s : String) (n : Nat) : String := String.mk (s.data.drop n)

/-- A `text` content block: empty after strip, bare-tag-like, and
XML-code-fenced texts are skipped; a non-string `text` value raises. -/
def renderTextBlock (block : JValue) : Except Unit (Option String) :=
  match jGet block "text" with
  | none => Except.ok none
  | some (JValue.str s) =>
    let text := pyStrip s
    if text = "" then Except.ok none
    else if pyStartsWith text "<" && pyEndsWith text ">" && pyContainsChar (pyDrop text 1) '/'
      then Except.ok none
    else if pyStartsWith text "```xml" || pyStartsWith text "```\n<" then Except.ok none
    else Except.ok (some text)
  | some _ => Except.error ()

/-- A `tool_use` content block rendered as a labelled Markdown code block. -/
def renderToolUse (pyDumps : JValue → Option String) (pyStr : JValue → String)
    (block : JValue) : String :=
  let tool_name := jField pyStr block "name" "unknown_tool"
  let tool_input := (jGet block "input").getD (JValue.obj [])
  let tool_id := jField pyStr block "id" ""
  let input_str := (pyDumps tool_input).getD (pyStr tool_input)
  "🔧 Tool Use: `" ++ tool_name ++ "` (ID: `" ++ tool_id ++ "`)\n\n```json\n" ++ input_str ++ "\n```"

/-- The parts of a list-valued `tool_result` content; a non-string `text`
field makes the final `"\n".join` raise. -/
def toolResultParts (pyStr : JValue → String) : List JValue → Except Unit (List String)
  | [] => Except.ok []
  | item :: rest => do
    let part ←
      match item with
      | JValue.obj _ =>
        if jIsStr (jGet item "type") "text" then
          match jGet item "text" with
          | none => Except.ok ""
          | some (JValue.str s) => Except.ok s
          | some _ => Except.error ()
        else Except.ok (pyStr item)
      | _ => Except.ok (pyStr item)
    let parts ← toolResultParts pyStr rest
    Except.ok (part :: parts)

/-- A `tool_result` content block: multi-part content joined, truncated past
3,000 characters with an explicit marker, errors flagged. -/
def renderToolResult (pyStr : JValue → String) (block : JValue) : Except Unit String := do
  let tool_content := (jGet block "content").getD (JValue.str "")
  let tool_use_id := jField pyStr block "tool_use_id" ""
  let is_error := jTruthy ((jGet block "is_error").getD (JValue.bool false))
  let tool_content_str ←
    match tool_content with
    | JValue.arr items => do
      let parts ← toolResultParts pyStr items
      Except.ok (String.intercalate "\n" parts)
    | JValue.str s => Except.ok s
    | v => Except.ok (pyStr v)
  let tool_content_str :=
    if tool_content_str.length > 3000 then pyTake tool_content_str 3000 ++ "\n\n... (truncated)"
    else tool_content_str
  let errPre := if is_error then "❌ " else ""
  Except.ok (errPre ++ "📤 Tool Result (ID: `" ++ tool_use_id ++ "`):\n\n```\n" ++
    tool_content_str ++ "\n```")

/-- Language hint from a code artifact's title suffix. -/
def codeLangHint (t : String) : String :=
  if pyEndsWith t ".py" then "python"
  else if pyEndsWith t ".js" || pyEndsWith t ".ts" then "javascript"
  else if pyEndsWith t ".html" then "html"
  else if pyEndsWith t ".css" then "css"
  else if pyEndsWith t ".json" then "json"
  else if pyEndsWith t ".sh" then "bash"
  else if pyEndsWith t ".yml" || pyEndsWith t ".yaml" then "yaml"
  else ""

/-- An `artifact` content block: title, declared type, body, language hint;
`.endswith` on a non-string title raises, but only on the code-typed path
(as in the source, where `endswith` runs inside that branch alone). -/
def renderArtifact (pyStr : JValue → String) (block : JValue) : Except Unit String := do
  let artifact_id := jField pyStr block "id" ""
  let atype := (jGet block "artifact_type").getD (JValue.str "")
  let titleVal := (jGet block "title").getD (JValue.str "")
  let artifact_content := jField pyStr block "content" ""
  let language_hint ←
    if jValIsStr atype "application/vnd.chat.code" then
      match titleVal with
      | JValue.str t => Except.ok (codeLangHint t)
      | _ => Except.error ()
    else Except.ok (
      if jValIsStr atype "text/markdown" then "markdown"
      else if jValIsStr atype "text/html" then "html"
      else if jValIsStr atype "image/svg+xml" then "svg"
      else "")
  Except.ok ("📄 Artifact: " ++ jAsStr pyStr titleVal ++ "\nType: `" ++ jAsStr pyStr atype ++
    "` | ID: `" ++ artifact_id ++ "`\n\n```" ++ language_hint ++ "\n" ++
    artifact_content ++ "\n```")

/-- Dispatch on a content block's `type`; non-dict blocks and unknown types
contribute nothing; `thinking` blocks are always dropped. -/
def renderBlock (pyDumps : JValue → Option String) (pyStr : JValue → String)
    (block : JValue) : Except Unit (Option String) :=
  match block with
  | JValue.obj _ =>
    match jGet block "type" with
    | some (JValue.str "text") => renderTextBlock block
    | some (JValue.str "thinking") => Except.ok none
    | some (JValue.str "tool_use") => Except.ok (some (renderToolUse pyDumps pyStr block))
    | some (JValue.str "tool_result") => (renderToolResult pyStr block).map some
    | some (JValue.str "artifact") => (renderArtifact pyStr block).map some
    | _ => Except.ok none
  | _ => Except.ok none

/-- The fragments of one assistant line's content blocks, in order. -/
def renderBlocks (pyDumps : JValue → Option String) (pyStr : JValue → String) :
    List JValue → Except Unit (List String)
  | [] => Except.ok []
  | b :: rest => do
    let r ← renderBlock pyDumps pyStr b
    let rs ← renderBlocks pyDumps pyStr rest
    match r with
    | none => Except.ok rs
    | some t => Except.ok (t :: rs)

/-- One parsed transcript line: `some texts` for an assistant entry, `none`
for any other role; a non-object entry or a non-object `message` raises. -/
def processEntry (pyDumps : JValue → Option String) (pyStr : JValue → String)
    (entry : JValue) : Except Unit (Option (List String)) :=
  match entry with
  | JValue.obj _ =>
    if jIsStr (jGet entry "type") "assistant" then
      let message := (jGet entry "message").getD (JValue.obj [])
      match message with
      | JValue.obj _ =>
        let content_blocks :=
          match jGet message "content" with
          | some (JValue.arr xs) => xs
          | some _ => []
          | none => []
        (renderBlocks pyDumps pyStr content_blocks).map some
      | _ => Except.error ()
    else Except.ok none
  | _ => Except.error ()

/-- `file.readlines()` worker: split after each newline, keep the terminator;
the accumulator holds the current line reversed. -/
def readlinesAux : List Char → List Char → List (List Char)
  | [], acc => if acc.isEmpty then [] else [acc.reverse]
  | c :: rest, acc =>
    if c = '\n' then (acc.reverse ++ ['\n']) :: readlinesAux rest []
    else readlinesAux rest (c :: acc)

/-- `file.readlines()`. -/
def readlines (s : String) : List String :=
  (readlinesAux s.data []).map (fun l => String.mk l)

structure TailSt where
  pos : Nat
  seen : Finset String
  responses : List String
  found : Bool

/-- One iteration of the tailer's line loop: skip lines below the prior
offset or with an already-seen `(path, offset)` key, skip unparsable lines,
collect an assistant line's fragments and mark its key seen. -/
def tailStep (pyDumps : JValue → Option String) (pyStr : JValue → String)
    (parse : String → Option JValue) (path : String) (last : Nat)
    (st : TailSt) (line : String) : Except (Finset String) TailSt :=
  let pos' := st.pos + line.length
  if st.pos < last then Except.ok { st with pos := pos' }
  else
    let key := path ++ ":" ++ toString st.pos
    if key ∈ st.seen then Except.ok { st with pos := pos' }
    else
      match parse (pyStrip line) with
      | none => Except.ok { st with pos := pos' }
      | some entry =>
        match processEntry pyDumps pyStr entry with
        | Except.error _ => Except.error st.seen
        | Except.ok none => Except.ok { st with pos := pos' }
        | Except.ok (some texts) =>
          let seen' := insert key st.seen
          if texts.isEmpty then
            Except.ok { pos := pos', seen := seen', responses := st.responses, found := st.found }
          else
            Except.ok { pos := pos', seen := seen',
                        responses := st.responses ++ [String.intercalate "\n" texts],
                        found := true }

/-- The whole line loop. -/
def tailScan (pyDumps : JValue → Option String) (pyStr : JValue → String)
    (parse : String → Option JValue) (content : String) (path : String) (last : Nat)
    (seen : Finset String) : Except (Finset String) TailSt :=
  (readlines content).foldlM (tailStep pyDumps pyStr parse path last)
    { pos := 0, seen := seen, responses := [], found := false }

/-- `extract_assistant_responses(transcript_path, last_response_pos,
seen_message_ids)`: empty result with offset 0 when the file is absent;
on an exception, empty text with the prior offset and the seen set as
mutated; otherwise the joined new text with the scanned offset, or the
prior offset unchanged when no new agent content was found. -/
def extract_assistant_responses (pyDumps : JValue → Option String)
    (pyStr : JValue → String) (parse : String → Option JValue)
    (fileContent : Option String) (transcript_path : String)
    (last_response_pos : Nat) (seen0 : Option (Finset String)) :
    String × Nat × Finset String :=
  match fileContent with
  | none => ("", 0, seen0.getD ∅)
  | some content =>
    let seen := seen0.getD ∅
    match tailScan pyDumps pyStr parse content transcript_path last_response_pos seen with
    | Except.error s => ("", last_response_pos, s)
    | Except.ok st =>
      if st.found then
        (pyStrip (String.intercalate "\n\n" st.responses), st.pos, st.seen)
      else ("", last_response_pos, st.seen)

/-- Whether the scan found new agent-authored content (the loop's
`found_new_content` flag; `false` when the scan aborted). -/
def tailFoundFlag (pyDumps : JValue → Option String) (pyStr : JValue → String)
    (parse : String → Option JValue) (content : String) (path : String) (last : Nat)
    (seen : Finset String) : Bool :=
  match tailScan pyDumps pyStr parse content path last seen with
  | Except.ok st => st.found
  | Except.error _ => false

/-! ### The tailer's offset discipline (C2, C3) -/

theorem readlinesAux_ne_nil : ∀ (s acc : List Char), ∀ l ∈ readlinesAux s acc, l ≠ [] := by
  intro s
  induction s with
  | nil =>
    intro acc l hl
    simp only [readlinesAux] at hl
    split at hl
    · simp at hl
    · rename_i hacc
      simp only [List.mem_singleton] at hl
      subst hl
      simpa using fun h => hacc (by simpa using congrArg List.reverse h)
  | cons c cs ih =>
    intro acc l hl
    simp only [readlinesAux] at hl
    split at hl
    · rcases List.mem_cons.mp hl with h | h
      · subst h; simp
      · exact ih [] l h
    · exact ih (c :: acc) l hl

theorem readlines_length_pos {s : String} {l : String} (h : l ∈ readlines s) :
    1 ≤ l.length := by
  rcases List.mem_map.mp h with ⟨cl, hcl, rfl⟩
  have hne := readlinesAux_ne_nil s.data [] cl hcl
  have : (String.mk cl).length = cl.length := rfl
  rw [this]
  cases cl with
  | nil => exact absurd rfl hne
  | cons a as => simp

theorem tailStep_inv {pyDumps : JValue → Option String} {pyStr : JValue → String}
    {parse : String → Option JValue} {path : String} {last : Nat}
    {st : TailSt} {line : String} (hline : 1 ≤ line.length)
    (hinv : st.found = true → last < st.pos) :
    ∀ st', tailStep pyDumps pyStr parse path last st line = Except.ok st' →
      (st'.found = true → last < st'.pos) := by
  intro st' h
  simp only [tailStep] at h
  by_cases h1 : st.pos < last
  · rw [if_pos h1] at h
    cases h
    intro hf
    have := hinv hf
    show last < st.pos + line.length
    omega
  · rw [if_neg h1] at h
    by_cases h2 : (path ++ ":" ++ toString st.pos) ∈ st.seen
    · rw [if_pos h2] at h
      cases h
      intro hf
      have := hinv hf
      show last < st.pos + line.length
      omega
    · rw [if_neg h2] at h
      cases hp : parse (pyStrip line) with
      | none =>
        rw [hp] at h
        cases h
        intro hf
        have := hinv hf
        show last < st.pos + line.length
        omega
      | some entry =>
        rw [hp] at h
        dsimp only at h
        cases hpe : processEntry pyDumps pyStr entry with
        | error e =>
          rw [hpe] at h
          simp at h
        | ok r =>
          rw [hpe] at h
          cases r with
          | none =>
            cases h
            intro hf
            have := hinv hf
            show last < st.pos + line.length
            omega
          | some texts =>
            dsimp only at h
            by_cases ht : texts.isEmpty = true
            · rw [if_pos ht] at h
              cases h
              intro hf
              have := hinv hf
              show last < st.pos + line.length
              omega
            · rw [if_neg ht] at h
              cases h
              intro _
              show last < st.pos + line.length
              simp only [not_lt] at h1
              omega

theorem tailScan_inv {pyDumps : JValue → Option String} {pyStr : JValue → String}
    {parse : String → Option JValue} {path : String} {last : Nat} :
    ∀ (lines : List String) (st : TailSt),
      (∀ l ∈ lines, 1 ≤ l.length) → (st.found = true → last < st.pos) →
      ∀ st', lines.foldlM (tailStep pyDumps pyStr parse path last) st = Except.ok st' →
        (st'.found = true → last < st'.pos) := by
  intro lines
  induction lines with
  | nil =>
    intro st _ hinv st' h
    simp only [List.foldlM_nil] at h
    cases h
    exact hinv
  | cons x xs ih =>
    intro st hlen hinv st' h
    rw [List.foldlM_cons] at h
    cases hstep : tailStep pyDumps pyStr parse path last st x with
    | error e =>
      rw [hstep] at h
      exact absurd h (by intro hc; cases hc)
    | ok st1 =>
      rw [hstep] at h
      have hbind : (Except.ok st1 >>= fun s' =>
          xs.foldlM (tailStep pyDumps pyStr parse path last) s') =
          xs.foldlM (tailStep pyDumps pyStr parse path last) st1 := rfl
      rw [hbind] at h
      have h1 := tailStep_inv (hlen x (List.mem_cons_self x xs)) hinv st1 hstep
      exact ih st1 (fun l hl => hlen l (List.mem_cons_of_mem x hl)) h1 st' h

/-- C2 (amended): when the transcript file exists, the offset returned by
`extract_assistant_responses` is never below the offset passed in, and it
differs from it only when new agent-authored content was found (the scan's
`found_new_content` flag). -/
theorem C2_offset_monotone_amended (pyDumps : JValue → Option String)
    (pyStr : JValue → String) (parse : String → Option JValue)
    (content path : String) (last : Nat) (seen0 : Option (Finset String)) :
    last ≤ (extract_assistant_responses pyDumps pyStr parse (some content)
      path last seen0).2.1 ∧
    ((extract_assistant_responses pyDumps pyStr parse (some content)
        path last seen0).2.1 ≠ last →
      tailFoundFlag pyDumps pyStr parse content path last (seen0.getD ∅) = true) := by
  unfold extract_assistant_responses tailFoundFlag
  dsimp only
  cases hscan : tailScan pyDumps pyStr parse content path last (seen0.getD ∅) with
  | error s => simp
  | ok st =>
    dsimp only
    by_cases hfound : st.found = true
    · rw [if_pos hfound]
      have hlt : last < st.pos := by
        refine @tailScan_inv pyDumps pyStr parse path last (readlines content)
          { pos := 0, seen := seen0.getD ∅, responses := [], found := false }
          (fun l hl => readlines_length_pos hl) (by simp) st ?_ hfound
        exact hscan
      exact ⟨le_of_lt hlt, fun _ => hfound⟩
    · rw [if_neg hfound]
      simp

/-- Trivial instantiation of the `json.dumps` parameter. -/
def jd0 : JValue → Option String := fun _ => none

/-- Trivial instantiation of the `str(·)` parameter. -/
def js0 : JValue → String := fun _ => ""

/-- A parse function that rejects every line (`json.loads` always failing). -/
def parse0 : String → Option JValue := fun _ => none

/-- A parse function recognising the single transcript line `x` as an
assistant entry carrying one text block `hola`. -/
def parse1 : String → Option JValue := fun s =>
  if s = "x" then
    some (JValue.obj [("type", JValue.str "assistant"),
      ("message", JValue.obj [("content",
        JValue.arr [JValue.obj [("type", JValue.str "text"),
                                ("text", JValue.str "hola")]])])])
  else none

/-- C2 counterexample: called on a path whose file does not exist with prior
offset 7, the tailer returns offset 0 — strictly below the offset passed in,
so the claimed monotonicity fails for absent files. -/
theorem C2_counterexample_missing_file :
    (extract_assistant_responses jd0 js0 parse0 none "p" 7 none).2.1 < 7 := by decide

theorem C2_offset_monotone_amended_witness :
    (3 ≤ (extract_assistant_responses jd0 js0 parse0 (some "") "p" 3 none).2.1) ∧
    tailFoundFlag jd0 js0 parse1 "x\n" "p" 0 ∅ = true :=
  ⟨(C2_offset_monotone_amended jd0 js0 parse0 "" "p" 3 none).1,
   (C2_offset_monotone_amended jd0 js0 parse1 "x\n" "p" 0 none).2 (by decide)⟩

/-- C3 counterexample: with prior offset 5 and an absent file the returned
offset is 0, not the offset passed in — the result is not "unchanged". -/
theorem C3_counterexample_offset_reset :
    (extract_assistant_responses jd0 js0 parse0 none "p" 5 none).2.1 = 0 ∧ (0 : Nat) ≠ 5 :=
  ⟨rfl, by decide⟩

/-- C3 (amended): on an absent file the tailer returns empty text, offset 0,
and the seen-key set with the value passed in (a fresh empty set for `None`);
only the offset is reset rather than preserved. -/
theorem C3_missing_file_amended (pyDumps : JValue → Option String)
    (pyStr : JValue → String) (parse : String → Option JValue)
    (path : String) (last : Nat) (seen0 : Option (Finset String)) :
    extract_assistant_responses pyDumps pyStr parse none path last seen0 =
      ("", 0, seen0.getD ∅) := rfl

/-! ## `src/bridge.py` — `ResponseMonitor._check_for_responses`

One check cycle is a pure function of an environment (configuration, clock,
filesystem, transport outcome) and a state (the pending marker — the contents
of the `telegram_pending` file —, the chat-id file, the memory DB, the
`recent_messages` maps, the transport log, and the monitor's per-file tail
state).  An exception escaping `_process_responses` into the cycle's handler
(in this model, the `int(...)` parse of a malformed chat-id file; the
transport's `reply` returns a boolean and does not raise) is the
`Except.error` channel. -/

structure BEnv where
  memoryEnabled : Bool
  replyOk : Bool
  md5 : String → String
  nowIso : String
  nowTs : Nat
  now : Int
  latest : Option String
  files : List (String × String)
  pyDumps : JValue → Option String
  pyStr : JValue → String
  parse : String → Option JValue

structure BState where
  pending : Option String
  chatIdFile : Option String
  memory : MemoryDB
  recentMessages : List (String × String)
  recentFullPrompts : List (String × String)
  sent : List (Int × String)
  lastTranscriptPath : Option String
  lastPosition : Nat
  seenIds : Finset String
  fileStates : List (String × (Nat × Finset String))
  checking : Bool

/-- `json.dumps({"type": "conversation"})`. -/
def metaConversation : String := "\x7b\"type\": \"conversation\"\x7d"

/-- `json.dumps({"type": "meta_update", "auto": True})`. -/
def metaMetaUpdate : String := "\x7b\"type\": \"meta_update\", \"auto\": true\x7d"

/-- `ResponseMonitor._save_to_memory`: store the Q/A pair when a recent user
message exists (popping both recent maps), then store the extracted memory
update when nonempty.  `_record_failures_if_any` writes only to the separate
failure store (module `failure_memory`, outside the core sources) and touches
none of the fields modelled here, so it is omitted. -/
def save_to_memory (env : BEnv) (st : BState) (chat_id : Int)
    (cleaned_responses memory_update : String) : BState :=
  if !env.memoryEnabled then st
  else
    let cid := toString chat_id
    let s1 :=
      match lookupAssoc st.recentMessages cid with
      | some user_msg =>
        { st with
          memory := (LocalMemory.add env.md5 st.memory cid
            ("Q: " ++ user_msg ++ "\nA: " ++ pyTake cleaned_responses 2000)
            (some metaConversation) "conversation" env.nowIso env.nowTs).1,
          recentMessages := removeAssoc st.recentMessages cid,
          recentFullPrompts := removeAssoc st.recentFullPrompts cid }
      | none => st
    if memory_update ≠ "" then
      { s1 with memory := (LocalMemory.add env.md5 s1.memory cid
          (pyTake memory_update 5000) (some metaMetaUpdate) "meta_update"
          env.nowIso env.nowTs).1 }
    else s1

/-- `ResponseMonitor._process_responses` (the transcript path and the new
position are used by the source only for logging): read the chat id, extract
the annotation, short-circuit empty display text (clearing the marker without
writing to memory), otherwise save to memory, send, and clear the marker only
on transport success. -/
def process_responses (env : BEnv) (st : BState) (responses : String) :
    Except BState BState :=
  match st.chatIdFile with
  | none => Except.ok st
  | some chatContent =>
    match pyParseInt (pyStrip chatContent) with
    | none => Except.error st
    | some chat_id =>
      let pr := extract_memory_update responses
      let cleaned_responses := pr.1
      let memory_update := pr.2
      if pyStrip cleaned_responses = "" then
        Except.ok { st with pending := none }
      else
        let st1 := save_to_memory env st chat_id cleaned_responses memory_update
        let st2 := { st1 with sent := st1.sent ++ [(chat_id, cleaned_responses)] }
        if env.replyOk then Except.ok { st2 with pending := none }
        else Except.ok st2

/-- The comparison `self.last_transcript_path == transcript_path` of lines
664 and 696: a `str` (or `None`) compared against a `pathlib.Path`, which
Python evaluates to `False` since neither side's `__eq__` accepts the other's
type. -/
def strEqPath (_lastPath : Option String) (_p : String) : Bool := false

/-- Lines 697-702: snapshot the outgoing file's `(position, seen)` state. -/
def switchStates (st : BState) : List (String × (Nat × Finset String)) :=
  match st.lastTranscriptPath with
  | some old => insertAssoc st.fileStates old (st.lastPosition, st.seenIds)
  | none => st.fileStates

/-- Lines 703-714: adopt the stored snapshot of the new file, or start fresh
at offset 0 with an empty seen set. -/
def loadState (fs : List (String × (Nat × Finset String))) (p : String) :
    Nat × Finset String :=
  (lookupAssoc fs p).getD (0, ∅)

/-- `ResponseMonitor._check_for_responses`, one cycle. -/
def check_for_responses (env : BEnv) (st : BState) : BState :=
  if st.pending.isNone then
    match env.latest with
    | some p =>
      if strEqPath st.lastTranscriptPath p then
        st
      else
        { st with lastTranscriptPath := none, lastPosition := 0, seenIds := ∅ }
    | none =>
      { st with lastTranscriptPath := none, lastPosition := 0, seenIds := ∅ }
  else if st.checking then st
  else
    match env.latest with
    | none => { st with checking := false }
    | some p =>
      let fs1 := switchStates st
      let ls := loadState fs1 p
      let r := extract_assistant_responses env.pyDumps env.pyStr env.parse
        (lookupAssoc env.files p) p ls.1 (some ls.2)
      let responses := r.1
      let newPos := r.2.1
      let seen' := r.2.2
      let st1 :=
        { st with
          lastTranscriptPath := some p
          lastPosition := newPos
          seenIds := seen'
          fileStates := insertAssoc fs1 p (newPos, seen')
          checking := false }
      if responses = "" then st1
      else
        match process_responses env st1 responses with
        | Except.ok st2 => { st2 with checking := false }
        | Except.error st2 =>
          match st2.pending with
          | none => { st2 with checking := false }
          | some content =>
            let pending_time := (pyParseInt (pyStrip content)).getD 0
            if env.now - pending_time > 600 then
              { st2 with pending := none, checking := false }
            else { st2 with checking := false }

/-! ### C4 and C8 -/

/-- A concrete check-cycle environment: memory on, transport succeeding,
clock at 701, one known transcript `t` that is empty. -/
def envW : BEnv :=
  { memoryEnabled := true, replyOk := true, md5 := fun s => s, nowIso := "T0",
    nowTs := 0, now := 701, latest := some "t", files := [("t", "")],
    pyDumps := fun _ => none, pyStr := fun _ => "", parse := fun _ => none }

/-- A concrete state: marker set at time 100, chat id 5, empty store, one
recent user message. -/
def stW : BState :=
  { pending := some "100", chatIdFile := some "5", memory := MemoryDB.empty,
    recentMessages := [("5", "hi")], recentFullPrompts := [], sent := [],
    lastTranscriptPath := none, lastPosition := 0, seenIds := ∅,
    fileStates := [], checking := false }

/-- C4 counterexample: a turn that is only an annotation — display text empty
after extraction while the captured content `k=v` is nonempty — is processed
by skipping delivery AND skipping the memory write: the resulting state only
clears the pending marker, leaving the memory store (and everything else)
untouched, whereas the claim requires the annotation to be persisted. -/
theorem C4_counterexample_annotation_dropped :
    (extract_memory_update "-- memory\nk=v\n--").2 = "k=v" ∧
    process_responses envW stW "-- memory\nk=v\n--" =
      Except.ok { stW with pending := none } := by
  constructor
  · rfl
  · rfl

/-- C4 (amended): when the extracted display text is empty or whitespace-only,
`_process_responses` skips delivery and also skips persisting the annotation:
the only state change is that the pending marker is cleared — the memory
store, the recent-message maps and the transport log are all left unchanged. -/
theorem C4_empty_display_skips_delivery_and_memory (env : BEnv) (st : BState)
    (responses chatContent : String) (chat_id : Int)
    (hchat : st.chatIdFile = some chatContent)
    (hparse : pyParseInt (pyStrip chatContent) = some chat_id)
    (hempty : pyStrip (extract_memory_update responses).1 = "") :
    process_responses env st responses = Except.ok { st with pending := none } := by
  unfold process_responses
  rw [hchat]
  dsimp only
  rw [hparse]
  dsimp only
  rw [if_pos hempty]

theorem C4_empty_display_skips_delivery_and_memory_witness :
    process_responses envW stW "-- memory\na=b\n--" =
      Except.ok { stW with pending := none } :=
  C4_empty_display_skips_delivery_and_memory envW stW "-- memory\na=b\n--" "5" 5
    rfl (by decide) (by decide)

/-- C8 counterexample: the marker was set at time 100 and the clock reads 701
(601 seconds elapsed); a check cycle that finds no new tailer content leaves
the marker in place — it is not cleared at the 600-second timeout. -/
theorem C8_counterexample_timeout_not_cleared :
    (check_for_responses envW stW).pending = some "100" := by rfl

/-- C8 (amended): the 600-second timeout is applied only in the error path of
the check cycle.  When the cycle finds no new tailer content — so no delivery
is attempted and no exception occurs — the pending marker is left exactly as
it was, however much time has elapsed; it is cleared only by a successful
delivery, by an empty-display turn, or by the exception handler once 600
seconds have passed. -/
theorem C8_pending_survives_quiet_checks (env : BEnv) (st : BState)
    (c : String) (p : String)
    (hpending : st.pending = some c) (hchk : st.checking = false)
    (hlatest : env.latest = some p)
    (hquiet : (extract_assistant_responses env.pyDumps env.pyStr env.parse
      (lookupAssoc env.files p) p (loadState (switchStates st) p).1
      (some (loadState (switchStates st) p).2)).1 = "") :
    (check_for_responses env st).pending = some c := by
  unfold check_for_responses
  rw [hpending, hchk, hlatest]
  dsimp only
  rw [if_pos hquiet]
  simp

theorem C8_pending_survives_quiet_checks_witness :
    (check_for_responses envW { stW with pending := some "50" }).pending = some "50" :=
  C8_pending_survives_quiet_checks envW { stW with pending := some "50" } "50" "t"
    rfl rfl rfl (by decide)
